import Mathlib

/-!
Shallow embedding of the gws WebSocket core (conn.go, writer.go): the frame
generator with its compression and size checks, the close/error state machine
with its compare-and-set guard, the write entry points, the buffer-pool
accounting of each path, and the Broadcaster's sentinel reference counter.
Machine integers are modelled as Nat/Int; the atomic operations of the source
are modelled by sequential interleavings (an atomic CAS or add sequentializes
the concurrent triggers, so any concurrent execution is one such order).
-/

namespace Gws

/-- Frame opcodes (continuation, text, binary, close, ping, pong). -/
inductive Opcode where
  | continuation
  | text
  | binary
  | closeConnection
  | ping
  | pong
deriving DecidableEq, Repr

/-- Modelled from the spec: `Opcode.isDataFrame` lives in a file not under
src/; §4.1 of the spec defines a data frame opcode as text or binary. -/
def Opcode.isDataFrame : Opcode → Bool
  | .text => true
  | .binary => true
  | _ => false

/-- Connection configuration and flags consulted by the writer: the role,
the compression flag of the connection, and the relevant config fields
(CheckUtf8Enabled, CompressThreshold, WriteMaxPayloadSize). -/
structure Config where
  isServer : Bool
  compressEnabled : Bool
  CheckUtf8Enabled : Bool
  CompressThreshold : Nat
  WriteMaxPayloadSize : Nat
deriving DecidableEq, Repr

/-- One byte is a UTF-8 continuation byte (10xxxxxx). -/
def isCont (b : Nat) : Bool := decide (0x80 ≤ b ∧ b < 0xC0)

/-- Embedding of Go `utf8.Valid`: well-formed UTF-8 per RFC 3629 (no
overlong encodings, no surrogates, nothing above U+10FFFF). -/
def utf8Valid : List Nat → Bool
  | [] => true
  | b :: rest =>
    if b < 0x80 then utf8Valid rest
    else if b < 0xC2 then false
    else if b < 0xE0 then
      match rest with
      | b1 :: r => isCont b1 && utf8Valid r
      | [] => false
    else if b < 0xF0 then
      match rest with
      | b1 :: b2 :: r =>
        (decide ((if b = 0xE0 then 0xA0 else 0x80) ≤ b1) &&
         decide (b1 < (if b = 0xED then 0xA0 else 0xC0)) && isCont b2) && utf8Valid r
      | _ => false
    else if b < 0xF5 then
      match rest with
      | b1 :: b2 :: b3 :: r =>
        (decide ((if b = 0xF0 then 0x90 else 0x80) ≤ b1) &&
         decide (b1 < (if b = 0xF4 then 0x90 else 0xC0)) && isCont b2 && isCont b3) && utf8Valid r
      | _ => false
    else false

/-- conn.go `isTextValid`: with UTF-8 checking disabled every payload
passes; with it enabled, text and close payloads must be valid UTF-8. -/
def isTextValid (cfg : Config) (opcode : Opcode) (payload : List Nat) : Bool :=
  if !cfg.CheckUtf8Enabled then true
  else
    match opcode with
    | .text => utf8Valid payload
    | .closeConnection => utf8Valid payload
    | _ => true

/-- Errors produced by the writer paths (the internal package's error values
are not under src/; these constructors stand for them). -/
inductive GErr where
  | unsupportedData
  | messageTooLarge
  | compressFail
  | connClosed
  | ioError
deriving DecidableEq, Repr

/-- The observable part of a generated frame: the RSV1 (compression) bit
passed to the header generator and the final payload length. Header byte
encoding and masking live in files not under src/ and no claim inspects
them. -/
structure Frame where
  rsv1 : Bool
  opcode : Opcode
  payloadLen : Nat
deriving DecidableEq, Repr

/-- Result of `genFrame`, instrumented with the branch taken
(`tookCompress` records whether `compressData` was invoked) and the number
of buffer-pool acquisitions and releases performed during the call. -/
structure GenOut where
  result : Except GErr Frame
  tookCompress : Bool
  gets : Nat
  puts : Nat
deriving Repr

/-- The guard of writer.go line 91: compression is enabled, the opcode is a
data frame, and the payload reaches the compression threshold. -/
def shouldCompress (cfg : Config) (opcode : Opcode) (payload : List Nat) : Bool :=
  cfg.compressEnabled && opcode.isDataFrame && decide (cfg.CompressThreshold ≤ payload.length)

/-- writer.go `compressData`: acquire a padded buffer from the pool, run the
compressor (modelled as a function that may fail), reject when the compressed
payload exceeds WriteMaxPayloadSize, otherwise emit the compressed frame.
Neither error path returns the acquired buffer to the pool. -/
def compressData (cfg : Config) (compress : List Nat → Option (List Nat))
    (opcode : Opcode) (payload : List Nat) : GenOut :=
  match compress payload with
  | none => ⟨.error .compressFail, true, 1, 0⟩
  | some out =>
    if cfg.WriteMaxPayloadSize < out.length then
      ⟨.error .messageTooLarge, true, 1, 0⟩
    else
      ⟨.ok ⟨true, opcode, out.length⟩, true, 1, 0⟩

/-- writer.go `genFrame`: UTF-8 check for text frames first, then the
compression branch, then the size check and the uncompressed frame with one
buffer acquisition. -/
def genFrame (cfg : Config) (compress : List Nat → Option (List Nat))
    (opcode : Opcode) (payload : List Nat) : GenOut :=
  if opcode = .text && !isTextValid cfg opcode payload then
    ⟨.error .unsupportedData, false, 0, 0⟩
  else if shouldCompress cfg opcode payload then
    compressData cfg compress opcode payload
  else if cfg.WriteMaxPayloadSize < payload.length then
    ⟨.error .messageTooLarge, false, 0, 0⟩
  else
    ⟨.ok ⟨false, opcode, payload.length⟩, false, 1, 0⟩

/-- Modelled from the spec: the status-code constants of the internal
package (not under src/), named by the spec's §7 taxonomy with their RFC
6455 values. Normal closure. -/
def CloseNormalClosure : Nat := 1000

/-- Modelled from the spec: protocol-error status code (RFC 6455). -/
def CloseProtocolError : Nat := 1002

/-- Modelled from the spec: unsupported-data status code (RFC 6455). -/
def CloseUnsupportedData : Nat := 1003

/-- Modelled from the spec: `internal.ThresholdV1`, the fixed cap applied to
the outgoing close-frame payload (not under src/); the spec fixes no value,
125 (the RFC 6455 control-frame payload cap) is chosen here. -/
def ThresholdV1 : Nat := 125

/-- Modelled from the spec: `StatusCode.Bytes` of the internal package (not
under src/) — the 2-byte big-endian encoding of a status code. -/
def statusBytes (code : Nat) : List Nat := [code / 256 % 256, code % 256]

/-- Observable close-related state of a connection: the atomic closed flag,
the number of close-frame writes attempted, and the number of OnClose
callback invocations. -/
structure ConnState where
  closed : Bool
  closeFrameWrites : Nat
  onCloseCalls : Nat
deriving DecidableEq, Repr

/-- A freshly opened connection (conn.go serveWebSocket sets closed to 0). -/
def initialConnState : ConnState := ⟨false, 0, 0⟩

/-- The compare-and-set body shared by the close transitions (conn.go lines
116-120): if the closed flag is still 0 set it to 1, attempt the close-frame
write and invoke OnClose; otherwise do nothing. -/
def closeCAS (s : ConnState) : ConnState :=
  if s.closed then s
  else ⟨true, s.closeFrameWrites + 1, s.onCloseCalls + 1⟩

/-- State effect of conn.go `emitError`: a nil error returns immediately;
a non-nil error runs the compare-and-set transition. -/
def emitErrorTrans (hasErr : Bool) (s : ConnState) : ConnState :=
  if hasErr then closeCAS s else s

/-- State effect of conn.go `emitClose` (lines 154-157): the compare-and-set
transition runs unconditionally after the payload is parsed. -/
def emitCloseTrans (s : ConnState) : ConnState :=
  if s.closed then s
  else ⟨true, s.closeFrameWrites + 1, s.onCloseCalls + 1⟩

/-- conn.go `emitError` lines 111-115: the outgoing close-frame content is
the 2-byte status code followed by the error text, truncated to ThresholdV1
when longer. -/
def emitErrorContent (code : Nat) (errText : List Nat) : List Nat :=
  let content := statusBytes code ++ errText
  if ThresholdV1 < content.length then content.take ThresholdV1 else content

/-- conn.go `emitError` line 117: the close-frame write result is discarded
(`_ =`); the transition proceeds identically whether that write failed or
not, so the parameter recording the write failure is unused. -/
def emitErrorWithWrite (_closeWriteFails : Bool) (s : ConnState) : ConnState :=
  if s.closed then s
  else ⟨true, s.closeFrameWrites + 1, s.onCloseCalls + 1⟩

/-- conn.go `emitClose` lines 124-153: the status code written back for a
peer close payload. Empty payload: code 0. One byte: protocol error. Two or
more bytes: the first two bytes are the big-endian code; the five reserved
codes, codes outside [1000,5000) and codes in [1016,3000) map to protocol
error, remaining codes below 1016 map to normal closure, the rest pass
through; an invalid UTF-8 reason (checking enabled) forces unsupported
data. -/
def emitCloseCode (checkUtf8 : Bool) (payload : List Nat) : Nat :=
  match payload with
  | [] => 0
  | [_] => CloseProtocolError
  | b0 :: b1 :: rest =>
    let realCode := b0 * 256 + b1
    let responseCode :=
      if realCode = 1004 ∨ realCode = 1005 ∨ realCode = 1006 ∨
         realCode = 1014 ∨ realCode = 1015 then CloseProtocolError
      else if realCode < 1000 ∨ 5000 ≤ realCode ∨
              (1016 ≤ realCode ∧ realCode < 3000) then CloseProtocolError
      else if realCode < 1016 then CloseNormalClosure
      else realCode
    if checkUtf8 && !utf8Valid rest then CloseUnsupportedData else responseCode

/-- Result of writer.go `doWrite`: the returned error, the number of socket
writes performed, and the pool accounting of the whole call (doWrite puts
the frame buffer back after the socket write; a genFrame error propagates
with no further release). -/
structure DoWriteOut where
  ret : Option GErr
  socketWrites : Nat
  gets : Nat
  puts : Nat
deriving Repr

/-- writer.go `doWrite`: generate the frame, write it to the socket, return
the buffer to the pool. No closed check — the close-frame write during the
transition runs through here after the flag is already 1. `ioFails` models a
WriteN failure. -/
def doWrite (cfg : Config) (compress : List Nat → Option (List Nat))
    (opcode : Opcode) (payload : List Nat) (ioFails : Bool) : DoWriteOut :=
  let g := genFrame cfg compress opcode payload
  match g.result with
  | .error e => ⟨some e, 0, g.gets, g.puts⟩
  | .ok _ => ⟨if ioFails then some .ioError else none, 1, g.gets, g.puts + 1⟩

/-- writer.go `WriteMessage`: fail fast with the connection-closed error when
the closed flag is set; otherwise run doWrite and route its result through
emitError. Returns (returned error, socket writes, new state). -/
def WriteMessage (cfg : Config) (compress : List Nat → Option (List Nat))
    (opcode : Opcode) (payload : List Nat) (s : ConnState) (ioFails : Bool) :
    Option GErr × Nat × ConnState :=
  if s.closed then (some .connClosed, 0, s)
  else
    let d := doWrite cfg compress opcode payload ioFails
    (d.ret, d.socketWrites, emitErrorTrans d.ret.isSome s)

/-- writer.go `WriteAsync`: generate the frame eagerly; on error route it
through emitError and return it; on success enqueue the socket-write task
and return nil. There is no closed check at entry. Returns (returned error,
task enqueued, new state). -/
def WriteAsync (cfg : Config) (compress : List Nat → Option (List Nat))
    (opcode : Opcode) (payload : List Nat) (s : ConnState) :
    Option GErr × Bool × ConnState :=
  match (genFrame cfg compress opcode payload).result with
  | .error e => (some e, false, emitErrorTrans true s)
  | .ok _ => (none, true, s)

/-- The task WriteAsync enqueues (writer.go lines 50-57): when the connection
is already closed it returns at once — before the socket write and before
the pool release; otherwise it writes, releases the buffer and routes the
write result through emitError. Returns (socket writes, pool puts, new
state). -/
def asyncTask (s : ConnState) (ioFails : Bool) : Nat × Nat × ConnState :=
  if s.closed then (0, 0, s)
  else (1, 1, emitErrorTrans ioFails s)

/-- conn.go `SetDeadline`: fail fast when closed, otherwise set the deadline
and route the result through emitError. -/
def SetDeadline (s : ConnState) (ioFails : Bool) : Option GErr × ConnState :=
  if s.closed then (some .connClosed, s)
  else ((if ioFails then some .ioError else none), emitErrorTrans ioFails s)

/-- A close trigger racing on one connection: an error surfaced by the read
loop, an error surfaced by a write, a peer close frame, or an explicit
WriteClose (which always constructs a non-nil error, writer.go lines
18-24). `hasErr` records whether the Go error value was nil. -/
inductive Trigger where
  | readError (hasErr : Bool)
  | writeError (hasErr : Bool)
  | peerClose (payload : List Nat)
  | writeClose (code : Nat) (reason : List Nat)
deriving DecidableEq, Repr

/-- Effect of one trigger on the connection state. -/
def applyTrigger (s : ConnState) (t : Trigger) : ConnState :=
  match t with
  | .readError hasErr => emitErrorTrans hasErr s
  | .writeError hasErr => emitErrorTrans hasErr s
  | .peerClose _ => emitCloseTrans s
  | .writeClose _ _ => emitErrorTrans true s

/-- A trigger that can perform the transition: everything except emitError
invoked with a nil error. -/
def isEffective : Trigger → Bool
  | .readError hasErr => hasErr
  | .writeError hasErr => hasErr
  | .peerClose _ => true
  | .writeClose _ _ => true

/-- The sentinel `math.MaxInt32` seeded into the Broadcaster counter at
construction (writer.go line 159). -/
def maxInt32 : Int := 2147483647

/-- One observable event in a Broadcaster's life: `enq` is the counter
increment Broadcast performs before enqueuing a write (line 179), `cpl` is
the decrement at the end of an enqueued write task (line 184), `rel` is the
sentinel subtraction performed by Release (line 203). -/
inductive BEvent where
  | enq
  | cpl
  | rel
deriving DecidableEq, Repr

/-- Broadcaster counter step: decrements call doClose (which puts the cached
buffers back to the pool) exactly when the counter reaches 0; the increment
in Broadcast does not inspect the result. State is (counter, doClose
calls). -/
def bStep : Int × Nat → BEvent → Int × Nat
  | (s, k), .enq => (s + 1, k)
  | (s, k), .cpl => (s - 1, if s - 1 = 0 then k + 1 else k)
  | (s, k), .rel => (s - maxInt32, if s - maxInt32 = 0 then k + 1 else k)

/-- Run a Broadcaster event trace from the freshly constructed state: the
counter seeded with the sentinel and doClose never called. -/
def bRun (es : List BEvent) : Int × Nat := es.foldl bStep (maxInt32, 0)

/-- Number of Broadcast counter increments in a trace. -/
def enqCount (es : List BEvent) : Nat := es.countP (fun e => e = BEvent.enq)

/-- Number of completed enqueued writes in a trace. -/
def cplCount (es : List BEvent) : Nat := es.countP (fun e => e = BEvent.cpl)

/-- Number of Release calls in a trace. -/
def relCount (es : List BEvent) : Nat := es.countP (fun e => e = BEvent.rel)

/-- Claim C10: invoking the error-emission path with a nil error is a no-op
(closed flag unchanged, no close-frame write, no callback), so a write or
deadline operation that succeeds leaves the connection Open even though it
routes its result through emitError. -/
theorem c10_nil_error_noop (s : ConnState) (cfg : Config)
    (compress : List Nat → Option (List Nat)) (opcode : Opcode) (payload : List Nat) :
    emitErrorTrans false s = s ∧
    (s.closed = false → ∀ f, (genFrame cfg compress opcode payload).result = Except.ok f →
      WriteMessage cfg compress opcode payload s false = (none, 1, s)) ∧
    (s.closed = false → SetDeadline s false = (none, s)) := by
  refine ⟨rfl, ?_, ?_⟩
  · intro h f hf
    simp [WriteMessage, h, doWrite, hf, emitErrorTrans]
  · intro h
    simp [SetDeadline, h, emitErrorTrans]

/-- Witness for C10 at a concrete open connection and empty binary payload. -/
theorem c10_witness :
    WriteMessage ⟨true, false, false, 0, 100⟩ (fun _ => none) .binary []
      initialConnState false = (none, 1, initialConnState) ∧
    SetDeadline initialConnState false = (none, initialConnState) := by
  have h := c10_nil_error_noop initialConnState ⟨true, false, false, 0, 100⟩
    (fun _ => none) .binary []
  exact ⟨h.2.1 rfl ⟨false, .binary, 0⟩ rfl, h.2.2 rfl⟩

/-- Claim C8: the outgoing close-frame content on an error-triggered close is
the 2-byte big-endian status code followed by the reason text; its total
length never exceeds ThresholdV1 and truncation only ever drops reason
bytes, never the status code; the close-frame write is best effort — the
transition is identical whether that write fails or not. -/
theorem c8_close_content (code : Nat) (txt : List Nat) (b1 b2 : Bool) (s : ConnState) :
    (emitErrorContent code txt).length ≤ ThresholdV1 ∧
    emitErrorContent code txt = statusBytes code ++ txt.take (ThresholdV1 - 2) ∧
    emitErrorWithWrite b1 s = emitErrorWithWrite b2 s := by
  have hsb : (statusBytes code).length = 2 := rfl
  unfold emitErrorContent ThresholdV1
  by_cases h : 125 < (statusBytes code ++ txt).length
  · rw [if_pos h]
    refine ⟨?_, ?_, rfl⟩
    · simp
    · rw [List.take_append_eq_append_take, hsb,
        List.take_of_length_le (hsb.le.trans (by norm_num))]
  · rw [if_neg h]
    rw [List.length_append, hsb] at h
    refine ⟨by rw [List.length_append, hsb]; omega, ?_, rfl⟩
    congr 1
    exact (List.take_of_length_le (by omega)).symm

/-- Claim C9: for a text-opcode write with UTF-8 checking enabled, an invalid
payload fails with UnsupportedData before any compression or buffer
acquisition; a valid payload, or checking disabled, never triggers this
failure. -/
theorem c9_text_utf8_check (cfg : Config) (compress : List Nat → Option (List Nat))
    (payload : List Nat) :
    (cfg.CheckUtf8Enabled = true → utf8Valid payload = false →
      genFrame cfg compress .text payload = ⟨.error .unsupportedData, false, 0, 0⟩) ∧
    ((cfg.CheckUtf8Enabled = false ∨ utf8Valid payload = true) →
      (genFrame cfg compress .text payload).result ≠ .error .unsupportedData) := by
  constructor
  · intro h1 h2
    simp [genFrame, isTextValid, h1, h2]
  · intro h
    have hv : isTextValid cfg .text payload = true := by
      rcases h with h | h <;> simp [isTextValid, h]
    simp only [genFrame, hv]
    simp only [Bool.not_true, Bool.and_false, Bool.false_eq_true, if_false]
    by_cases hs : shouldCompress cfg .text payload = true
    · rw [if_pos hs]
      cases hcp : compress payload with
      | none => simp [compressData, hcp]
      | some out =>
        simp only [compressData, hcp]
        split <;> simp
    · rw [if_neg hs]
      split <;> simp

/-- Witness for C9: an invalid text payload is rejected before compression
and buffer acquisition, and a valid one is not rejected by the check. -/
theorem c9_witness :
    genFrame ⟨true, false, true, 0, 100⟩ (fun _ => none) .text [255] =
      ⟨.error .unsupportedData, false, 0, 0⟩ ∧
    (genFrame ⟨true, false, true, 0, 100⟩ (fun _ => none) .text [104]).result ≠
      .error .unsupportedData := by
  constructor
  · exact (c9_text_utf8_check ⟨true, false, true, 0, 100⟩ (fun _ => none) [255]).1 rfl rfl
  · exact (c9_text_utf8_check ⟨true, false, true, 0, 100⟩ (fun _ => none) [104]).2 (Or.inr rfl)

/-- Counterexample to claim C3: on a closed connection WriteAsync does not
return a connection-closed error — with a frame that generates fine it
returns no error at all (the closed check happens only inside the queued
task). -/
theorem c3_counterexample :
    (WriteAsync ⟨true, false, false, 0, 100⟩ (fun _ => none) .binary []
      ⟨true, 1, 1⟩).1 = none ∧
    (WriteAsync ⟨true, false, false, 0, 100⟩ (fun _ => none) .binary []
      ⟨true, 1, 1⟩).1 ≠ some GErr.connClosed := by
  exact ⟨rfl, by simp [WriteAsync, genFrame, shouldCompress, isTextValid]⟩

/-- Claim C3 amended: once the closed flag is set, WriteMessage fails fast
with the connection-closed error and performs no socket write, and the
internal doWrite used for the close frame is exempt from the check (it still
writes); WriteAsync however has no entry check: on a closed connection it
still generates the frame, enqueues the task and returns no error, and the
queued task skips the socket write when it runs. -/
theorem c3_amended (cfg : Config) (compress : List Nat → Option (List Nat))
    (opcode : Opcode) (payload : List Nat) (ioFails : Bool) (s : ConnState)
    (h : s.closed = true) :
    WriteMessage cfg compress opcode payload s ioFails = (some .connClosed, 0, s) ∧
    (∀ f, (genFrame cfg compress opcode payload).result = Except.ok f →
      WriteAsync cfg compress opcode payload s = (none, true, s) ∧
      (doWrite cfg compress opcode payload ioFails).socketWrites = 1) ∧
    asyncTask s ioFails = (0, 0, s) := by
  refine ⟨by simp [WriteMessage, h], ?_, by simp [asyncTask, h]⟩
  intro f hf
  exact ⟨by simp [WriteAsync, hf], by simp [doWrite, hf]⟩

/-- Witness for the amended C3 at a concrete closed connection. -/
theorem c3_amended_witness :
    WriteMessage ⟨true, false, false, 0, 100⟩ (fun _ => none) .binary []
      ⟨true, 1, 1⟩ false = (some .connClosed, 0, ⟨true, 1, 1⟩) ∧
    WriteAsync ⟨true, false, false, 0, 100⟩ (fun _ => none) .binary []
      ⟨true, 1, 1⟩ = (none, true, ⟨true, 1, 1⟩) := by
  have h := c3_amended ⟨true, false, false, 0, 100⟩ (fun _ => none) .binary []
    false ⟨true, 1, 1⟩ rfl
  exact ⟨h.1, (h.2.1 ⟨false, .binary, 0⟩ rfl).1⟩

/-- Counterexample to claim C6: when the compressor fails after compressData
has acquired a buffer from the pool, the whole synchronous write returns the
error having acquired one buffer and released none — the buffer is not
released exactly once. The same holds for the queued async task running on a
closed connection: it returns before the pool release, so the frame buffer
acquired for it is never returned. -/
theorem c6_counterexample :
    (doWrite ⟨true, true, false, 0, 100⟩ (fun _ => none) .binary [0, 0, 0, 0] false).gets = 1 ∧
    (doWrite ⟨true, true, false, 0, 100⟩ (fun _ => none) .binary [0, 0, 0, 0] false).puts = 0 ∧
    (doWrite ⟨true, true, false, 0, 100⟩ (fun _ => none) .binary [0, 0, 0, 0] false).ret =
      some GErr.compressFail ∧
    asyncTask ⟨true, 1, 1⟩ false = (0, 0, ⟨true, 1, 1⟩) := by
  exact ⟨rfl, rfl, rfl, rfl⟩

/-- Claim C6 amended: no path ever double-releases — genFrame acquires at
most one buffer and its caller at most releases that one — and on every
successful path the buffer is released exactly once (doWrite releases after
the socket write whether or not the write failed; the async task on an open
connection does the same); but when frame generation fails after acquiring a
buffer (compressor error, oversize after compression), and when the queued
async task runs on a closed connection, the acquired buffer is never
returned to the pool. -/
theorem c6_amended (cfg : Config) (compress : List Nat → Option (List Nat))
    (opcode : Opcode) (payload : List Nat) (ioFails : Bool) (s : ConnState) :
    (genFrame cfg compress opcode payload).puts = 0 ∧
    (genFrame cfg compress opcode payload).gets ≤ 1 ∧
    (∀ e, (genFrame cfg compress opcode payload).result = Except.error e →
      (doWrite cfg compress opcode payload ioFails).puts = 0 ∧
      (doWrite cfg compress opcode payload ioFails).socketWrites = 0) ∧
    (∀ f, (genFrame cfg compress opcode payload).result = Except.ok f →
      (genFrame cfg compress opcode payload).gets = 1 ∧
      (doWrite cfg compress opcode payload ioFails).gets = 1 ∧
      (doWrite cfg compress opcode payload ioFails).puts = 1) ∧
    (s.closed = true → asyncTask s ioFails = (0, 0, s)) ∧
    (s.closed = false → asyncTask s ioFails = (1, 1, emitErrorTrans ioFails s)) := by
  have hputs : (genFrame cfg compress opcode payload).puts = 0 := by
    unfold genFrame compressData
    split
    · rfl
    split
    · cases compress payload with
      | none => rfl
      | some out => dsimp only; split <;> rfl
    split <;> rfl
  have hgets : (genFrame cfg compress opcode payload).gets ≤ 1 := by
    unfold genFrame compressData
    split
    · exact Nat.zero_le 1
    split
    · cases compress payload with
      | none => exact le_refl 1
      | some out => dsimp only; split <;> exact le_refl 1
    split
    · exact Nat.zero_le 1
    · exact le_refl 1
  have hok : ∀ f, (genFrame cfg compress opcode payload).result = Except.ok f →
      (genFrame cfg compress opcode payload).gets = 1 := by
    intro f hf
    revert hf
    unfold genFrame compressData
    split
    · intro hf; exact absurd hf (by simp)
    split
    · cases compress payload with
      | none => intro hf; exact absurd hf (by simp)
      | some out =>
        dsimp only
        split
        · intro hf; exact absurd hf (by simp)
        · intro _; rfl
    split
    · intro hf; exact absurd hf (by simp)
    · intro _; rfl
  refine ⟨hputs, hgets, ?_, ?_, by intro h; simp [asyncTask, h], by intro h; simp [asyncTask, h]⟩
  · intro e he
    simp [doWrite, he, hputs]
  · intro f hf
    refine ⟨hok f hf, ?_, ?_⟩ <;> simp [doWrite, hf, hok f hf, hputs]

/-- Witness for the amended C6: a successful uncompressed write acquires and
releases exactly one buffer. -/
theorem c6_amended_witness :
    (doWrite ⟨true, false, false, 0, 100⟩ (fun _ => none) .binary [7] false).gets = 1 ∧
    (doWrite ⟨true, false, false, 0, 100⟩ (fun _ => none) .binary [7] false).puts = 1 := by
  have h := c6_amended ⟨true, false, false, 0, 100⟩ (fun _ => none) .binary [7]
    false initialConnState
  exact ⟨(h.2.2.2.1 ⟨false, .binary, 1⟩ rfl).2.1, (h.2.2.2.1 ⟨false, .binary, 1⟩ rfl).2.2⟩

/-- Claim C4: when the final frame payload — the compressed output on the
compression path, the original payload otherwise — exceeds
WriteMaxPayloadSize, frame generation fails with MessageTooLarge, the
synchronous path performs no socket write and the asynchronous path enqueues
nothing. -/
theorem c4_oversize (cfg : Config) (compress : List Nat → Option (List Nat))
    (opcode : Opcode) (payload : List Nat) (ioFails : Bool) (s : ConnState)
    (h : isTextValid cfg opcode payload = true) :
    (shouldCompress cfg opcode payload = false →
      cfg.WriteMaxPayloadSize < payload.length →
      (genFrame cfg compress opcode payload).result = Except.error .messageTooLarge ∧
      (doWrite cfg compress opcode payload ioFails).socketWrites = 0 ∧
      (WriteAsync cfg compress opcode payload s).2.1 = false) ∧
    (shouldCompress cfg opcode payload = true →
      ∀ out, compress payload = some out →
      cfg.WriteMaxPayloadSize < out.length →
      (genFrame cfg compress opcode payload).result = Except.error .messageTooLarge ∧
      (doWrite cfg compress opcode payload ioFails).socketWrites = 0 ∧
      (WriteAsync cfg compress opcode payload s).2.1 = false) := by
  constructor
  · intro hs hlen
    have hg : (genFrame cfg compress opcode payload).result =
        Except.error .messageTooLarge := by
      simp [genFrame, h, hs, hlen]
    exact ⟨hg, by simp [doWrite, hg], by simp [WriteAsync, hg]⟩
  · intro hs out hout hlen
    have hg : (genFrame cfg compress opcode payload).result =
        Except.error .messageTooLarge := by
      simp [genFrame, h, hs, compressData, hout, hlen]
    exact ⟨hg, by simp [doWrite, hg], by simp [WriteAsync, hg]⟩

/-- Witness for C4: an uncompressed payload one byte over the limit, and a
compressed output one byte over the limit, both fail with MessageTooLarge
without reaching the socket. -/
theorem c4_witness :
    (genFrame ⟨true, false, false, 0, 3⟩ (fun _ => none) .binary [1, 2, 3, 4]).result =
      Except.error .messageTooLarge ∧
    (doWrite ⟨true, false, false, 0, 3⟩ (fun _ => none) .binary [1, 2, 3, 4] false).socketWrites = 0 ∧
    (genFrame ⟨true, true, false, 0, 3⟩ (fun _ => some [9, 9, 9, 9]) .binary [1, 2]).result =
      Except.error .messageTooLarge := by
  have h1 := c4_oversize ⟨true, false, false, 0, 3⟩ (fun _ => none) .binary [1, 2, 3, 4]
    false initialConnState rfl
  have h2 := c4_oversize ⟨true, true, false, 0, 3⟩ (fun _ => some [9, 9, 9, 9]) .binary [1, 2]
    false initialConnState rfl
  exact ⟨(h1.1 rfl (by norm_num)).1, (h1.1 rfl (by norm_num)).2.1,
    (h2.2 rfl [9, 9, 9, 9] rfl (by norm_num)).1⟩

/-- Claim C5: the frame generator takes the compression path exactly when
compression is enabled, the opcode is a data frame, and the payload length
reaches the compression threshold; frames produced off that path carry RSV1
clear and frames produced on it carry RSV1 set. -/
theorem c5_compress_path (cfg : Config) (compress : List Nat → Option (List Nat))
    (opcode : Opcode) (payload : List Nat)
    (h : isTextValid cfg opcode payload = true) :
    ((genFrame cfg compress opcode payload).tookCompress = true ↔
      cfg.compressEnabled = true ∧ opcode.isDataFrame = true ∧
        cfg.CompressThreshold ≤ payload.length) ∧
    (shouldCompress cfg opcode payload = true →
      ∀ f, (genFrame cfg compress opcode payload).result = Except.ok f → f.rsv1 = true) ∧
    (shouldCompress cfg opcode payload = false →
      ∀ f, (genFrame cfg compress opcode payload).result = Except.ok f → f.rsv1 = false) := by
  have htook : (genFrame cfg compress opcode payload).tookCompress =
      shouldCompress cfg opcode payload := by
    unfold genFrame compressData
    simp only [h, Bool.not_true, Bool.and_false, Bool.false_eq_true, if_false]
    by_cases hs : shouldCompress cfg opcode payload = true
    · rw [if_pos hs, hs]
      cases compress payload with
      | none => rfl
      | some out => dsimp only; split <;> rfl
    · rw [Bool.not_eq_true] at hs
      rw [hs, if_neg (by simp)]
      split <;> rfl
  refine ⟨?_, ?_, ?_⟩
  · rw [htook]
    simp [shouldCompress, Bool.and_eq_true, decide_eq_true_iff, and_assoc]
  · intro hs f hf
    revert hf
    simp only [genFrame, h, Bool.not_true, Bool.and_false, Bool.false_eq_true, if_false,
      if_pos hs, compressData]
    cases compress payload with
    | none => intro hf; exact absurd hf (by simp)
    | some out =>
      dsimp only
      split
      · intro hf; exact absurd hf (by simp)
      · intro hf
        have : f = ⟨true, opcode, out.length⟩ := by
          simpa using hf.symm
        rw [this]
  · intro hs f hf
    revert hf
    simp only [genFrame, h, Bool.not_true, Bool.and_false, Bool.false_eq_true, if_false,
      hs, Bool.false_eq_true, if_false]
    split
    · intro hf; exact absurd hf (by simp)
    · intro hf
      have : f = ⟨false, opcode, payload.length⟩ := by
        simpa using hf.symm
      rw [this]

/-- Witness for C5: with compression enabled and a payload at the threshold
the compression path is taken, and below the threshold it is not. -/
theorem c5_witness :
    (genFrame ⟨true, true, false, 2, 100⟩ (fun _ => some [9]) .binary [1, 2, 3]).tookCompress = true ∧
    (genFrame ⟨true, true, false, 2, 100⟩ (fun _ => some [9]) .binary [1]).tookCompress = false := by
  have h1 := c5_compress_path ⟨true, true, false, 2, 100⟩ (fun _ => some [9]) .binary [1, 2, 3] rfl
  have h2 := c5_compress_path ⟨true, true, false, 2, 100⟩ (fun _ => some [9]) .binary [1] rfl
  constructor
  · exact h1.1.mpr ⟨rfl, rfl, by norm_num⟩
  · rw [Bool.eq_false_iff]
    intro hc
    exact absurd (h2.1.mp hc).2.2 (by norm_num)

/-- Claim C2: the close code responded to a peer close payload — empty
payload gives 0, a 1-byte payload gives protocol error; for two or more
bytes the big-endian code of the first two bytes maps to protocol error when
reserved (1004, 1005, 1006, 1014, 1015), below 1000, at or above 5000, or in
[1016, 3000), passes through as normal closure in [1000, 1016), passes
through as given in [3000, 5000), and an invalid UTF-8 reason with checking
enabled forces unsupported data. -/
theorem c2_close_code_map (check : Bool) :
    emitCloseCode check [] = 0 ∧
    (∀ x, emitCloseCode check [x] = CloseProtocolError) ∧
    (∀ b0 b1 rest, b0 < 256 → b1 < 256 →
      (check = true → utf8Valid rest = false →
        emitCloseCode check (b0 :: b1 :: rest) = CloseUnsupportedData) ∧
      ((check = true → utf8Valid rest = true) →
        ((b0 * 256 + b1 = 1004 ∨ b0 * 256 + b1 = 1005 ∨ b0 * 256 + b1 = 1006 ∨
            b0 * 256 + b1 = 1014 ∨ b0 * 256 + b1 = 1015) →
          emitCloseCode check (b0 :: b1 :: rest) = CloseProtocolError) ∧
        ((b0 * 256 + b1 < 1000 ∨ 5000 ≤ b0 * 256 + b1 ∨
            (1016 ≤ b0 * 256 + b1 ∧ b0 * 256 + b1 < 3000)) →
          emitCloseCode check (b0 :: b1 :: rest) = CloseProtocolError) ∧
        (1000 ≤ b0 * 256 + b1 → b0 * 256 + b1 < 1016 →
          b0 * 256 + b1 ≠ 1004 → b0 * 256 + b1 ≠ 1005 → b0 * 256 + b1 ≠ 1006 →
          b0 * 256 + b1 ≠ 1014 → b0 * 256 + b1 ≠ 1015 →
          emitCloseCode check (b0 :: b1 :: rest) = CloseNormalClosure) ∧
        (3000 ≤ b0 * 256 + b1 → b0 * 256 + b1 < 5000 →
          emitCloseCode check (b0 :: b1 :: rest) = b0 * 256 + b1))) := by
  refine ⟨rfl, fun x => rfl, ?_⟩
  intro b0 b1 rest _ _
  constructor
  · intro h1 h2
    simp [emitCloseCode, h1, h2]
  · intro hno
    have hov : (check && !utf8Valid rest) = false := by
      cases check with
      | false => rfl
      | true => rw [hno rfl]; rfl
    refine ⟨?_, ?_, ?_, ?_⟩ <;>
      simp only [emitCloseCode, hov, Bool.false_eq_true, if_false]
    · intro hres
      rw [if_pos hres]
    · intro hrange
      split_ifs <;> rfl
    · intro hge hlt hn1 hn2 hn3 hn4 hn5
      split_ifs <;> first | rfl | omega
    · intro hge hlt
      split_ifs <;> first | rfl | omega

/-- Witness for C2: code 1005 is remapped to the protocol-error code, code
1000 passes through as normal closure, and a 1-byte payload is remapped to
protocol error. -/
theorem c2_witness :
    emitCloseCode true [3, 237] = CloseProtocolError ∧
    emitCloseCode true [3, 232] = CloseNormalClosure ∧
    emitCloseCode true [5] = CloseProtocolError := by
  have h := (c2_close_code_map true).2.2
  refine ⟨?_, ?_, (c2_close_code_map true).2.1 5⟩
  · exact ((h 3 237 [] (by norm_num) (by norm_num)).2 (fun _ => rfl)).1 (by norm_num)
  · exact ((h 3 232 [] (by norm_num) (by norm_num)).2 (fun _ => rfl)).2.2.1
      (by norm_num) (by norm_num) (by norm_num) (by norm_num) (by norm_num)
      (by norm_num) (by norm_num)

/-- The compare-and-set transition always leaves the flag set. -/
lemma closeCAS_closed (s : ConnState) : (closeCAS s).closed = true := by
  unfold closeCAS
  split <;> simp_all

/-- Effect of emitError on the closed flag. -/
lemma emitErrorTrans_closed (b : Bool) (s : ConnState) :
    (emitErrorTrans b s).closed = (s.closed || b) := by
  cases b with
  | false => simp [emitErrorTrans]
  | true => simp [emitErrorTrans, closeCAS_closed]

/-- emitClose's compare-and-set is the same transition as emitError's. -/
lemma emitCloseTrans_eq_closeCAS (s : ConnState) : emitCloseTrans s = closeCAS s := rfl

/-- Effect of one trigger on the closed flag. -/
lemma applyTrigger_closed (s : ConnState) (t : Trigger) :
    (applyTrigger s t).closed = (s.closed || isEffective t) := by
  cases t with
  | readError b => exact emitErrorTrans_closed b s
  | writeError b => exact emitErrorTrans_closed b s
  | peerClose p => rw [applyTrigger, isEffective, emitCloseTrans_eq_closeCAS,
      closeCAS_closed, Bool.or_true]
  | writeClose c r => rw [applyTrigger, isEffective, emitErrorTrans_closed, Bool.or_true]

/-- After any sequence of triggers the closed flag is set exactly when some
effective trigger occurred. -/
lemma foldTriggers_closed (ts : List Trigger) (s : ConnState) :
    (ts.foldl applyTrigger s).closed = (s.closed || ts.any isEffective) := by
  induction ts generalizing s with
  | nil => simp
  | cons t ts ih =>
    rw [List.foldl_cons, List.any_cons, ih, applyTrigger_closed, Bool.or_assoc]

/-- One trigger preserves the invariant tying both counters to the closed
flag. -/
lemma applyTrigger_counts (s : ConnState) (t : Trigger)
    (h1 : s.onCloseCalls = if s.closed then 1 else 0)
    (h2 : s.closeFrameWrites = if s.closed then 1 else 0) :
    (applyTrigger s t).onCloseCalls = (if (applyTrigger s t).closed then 1 else 0) ∧
    (applyTrigger s t).closeFrameWrites = (if (applyTrigger s t).closed then 1 else 0) := by
  have hcas : (closeCAS s).onCloseCalls = 1 ∧ (closeCAS s).closeFrameWrites = 1 := by
    unfold closeCAS
    by_cases h : s.closed
    · rw [if_pos h]
      rw [if_pos h] at h1 h2
      exact ⟨h1, h2⟩
    · rw [if_neg h]
      simp only [Bool.not_eq_true] at h
      rw [h] at h1 h2
      simp only [Bool.false_eq_true, if_false] at h1 h2
      exact ⟨by simp [h1], by simp [h2]⟩
  cases t with
  | readError b =>
    cases b with
    | false => exact ⟨h1, h2⟩
    | true =>
      simp only [applyTrigger, emitErrorTrans, if_pos, closeCAS_closed, if_true]
      exact hcas
  | writeError b =>
    cases b with
    | false => exact ⟨h1, h2⟩
    | true =>
      simp only [applyTrigger, emitErrorTrans, if_pos, closeCAS_closed, if_true]
      exact hcas
  | peerClose p =>
    simp only [applyTrigger, emitCloseTrans_eq_closeCAS, closeCAS_closed, if_true]
    exact hcas
  | writeClose c r =>
    simp only [applyTrigger, emitErrorTrans, if_pos, closeCAS_closed, if_true]
    exact hcas

/-- The counter invariant holds after any sequence of triggers. -/
lemma foldTriggers_counts (ts : List Trigger) (s : ConnState)
    (h1 : s.onCloseCalls = if s.closed then 1 else 0)
    (h2 : s.closeFrameWrites = if s.closed then 1 else 0) :
    (ts.foldl applyTrigger s).onCloseCalls =
      (if (ts.foldl applyTrigger s).closed then 1 else 0) ∧
    (ts.foldl applyTrigger s).closeFrameWrites =
      (if (ts.foldl applyTrigger s).closed then 1 else 0) := by
  induction ts generalizing s with
  | nil => exact ⟨h1, h2⟩
  | cons t ts ih =>
    rw [List.foldl_cons]
    have hstep := applyTrigger_counts s t h1 h2
    exact ih (applyTrigger s t) hstep.1 hstep.2

/-- Claim C1: among any sequence of close triggers (read errors, write
errors, peer close frames, explicit WriteClose — the atomic compare-and-set
makes any concurrent execution one such sequence) containing at least one
effective trigger, OnClose is invoked exactly once, the close-frame write
occurs at most once, and any trigger arriving after the connection is closed
leaves the state untouched — no write, no callback. -/
theorem c1_exactly_once_close (ts : List Trigger)
    (h : ts.any isEffective = true) :
    (ts.foldl applyTrigger initialConnState).onCloseCalls = 1 ∧
    (ts.foldl applyTrigger initialConnState).closeFrameWrites ≤ 1 ∧
    (∀ (u : ConnState) (t : Trigger), u.closed = true → applyTrigger u t = u) := by
  have hclosed : (ts.foldl applyTrigger initialConnState).closed = true := by
    rw [foldTriggers_closed, h]
    rfl
  have hcounts := foldTriggers_counts ts initialConnState rfl rfl
  refine ⟨?_, ?_, ?_⟩
  · rw [hcounts.1, hclosed]
    rfl
  · rw [hcounts.2, hclosed]
    exact le_refl 1
  · intro u t hu
    cases t <;> simp [applyTrigger, emitErrorTrans, emitCloseTrans, closeCAS, hu]

/-- Witness for C1: a read error, a concurrent peer close frame and an
explicit WriteClose racing on one fresh connection produce exactly one
OnClose call and one close-frame write. -/
theorem c1_witness :
    ([Trigger.readError true, Trigger.peerClose [3, 232],
        Trigger.writeClose 1000 []].foldl applyTrigger initialConnState).onCloseCalls = 1 ∧
    ([Trigger.readError true, Trigger.peerClose [3, 232],
        Trigger.writeClose 1000 []].foldl applyTrigger initialConnState).closeFrameWrites ≤ 1 := by
  have h := c1_exactly_once_close
    [Trigger.readError true, Trigger.peerClose [3, 232], Trigger.writeClose 1000 []]
    (by decide)
  exact ⟨h.1, h.2.1⟩

/-- Closed form of the Broadcaster counter after any event sequence from any
start value: start plus increments minus completions minus the sentinel per
Release. -/
lemma bFold_counter (l : List BEvent) : ∀ (s : Int) (k : Nat),
    (l.foldl bStep (s, k)).1 =
      s + (enqCount l : Int) - (cplCount l : Int) - maxInt32 * (relCount l : Int) := by
  induction l with
  | nil =>
    intro s k
    simp [enqCount, cplCount, relCount]
  | cons e l ih =>
    intro s k
    cases e with
    | enq =>
      rw [List.foldl_cons]
      show (l.foldl bStep (s + 1, k)).1 = _
      rw [ih]
      simp [enqCount, cplCount, relCount, List.countP_cons]
      ring
    | cpl =>
      rw [List.foldl_cons]
      show (l.foldl bStep (s - 1, if s - 1 = 0 then k + 1 else k)).1 = _
      rw [ih]
      simp [enqCount, cplCount, relCount, List.countP_cons]
      ring
    | rel =>
      rw [List.foldl_cons]
      show (l.foldl bStep (s - maxInt32, if s - maxInt32 = 0 then k + 1 else k)).1 = _
      rw [ih]
      simp [enqCount, cplCount, relCount, List.countP_cons]
      ring

/-- Claim C7: for any interleaving of Broadcast increments, write-task
completions and the single Release over a freshly constructed Broadcaster —
completions never outrun increments, nothing is enqueued after Release, and
in the end every enqueued write has completed — doClose (which returns the
cached frame buffers to the pool) runs exactly once, and at any point where
it has run, Release has been called and the completed writes equal all
enqueued writes, so no broadcast write is still pending. -/
theorem c7_broadcaster_release (es : List BEvent)
    (hrel : relCount es = 1)
    (hord : ∀ n, n ≤ es.length → cplCount (es.take n) ≤ enqCount (es.take n))
    (hseq : ∀ n, n ≤ es.length → 1 ≤ relCount (es.take n) →
      enqCount (es.take n) = enqCount es)
    (hall : cplCount es = enqCount es) :
    (bRun es).2 = 1 ∧
    (∀ n, 1 ≤ (bRun (es.take n)).2 →
      relCount (es.take n) = 1 ∧ cplCount (es.take n) = enqCount es) := by
  have hrunfst : ∀ (l : List BEvent),
      (bRun l).1 = maxInt32 + (enqCount l : Int) - (cplCount l : Int) -
        maxInt32 * (relCount l : Int) :=
    fun l => bFold_counter l maxInt32 0
  have hsubE : ∀ n, enqCount (es.take n) ≤ enqCount es :=
    fun n => (List.take_sublist n es).countP_le _
  have hsubR : ∀ n, relCount (es.take n) ≤ relCount es :=
    fun n => (List.take_sublist n es).countP_le _
  have hdecomp : ∀ n, n < es.length → ∃ e, es.take (n + 1) = es.take n ++ [e] := by
    intro n hn
    refine ⟨es[n], ?_⟩
    rw [List.take_succ]
    simp [List.getElem?_eq_getElem hn]
  have hpos : ∀ n, n < es.length → 0 < (bRun (es.take n)).1 := by
    intro n hn
    rcases Nat.eq_zero_or_pos (relCount (es.take n)) with hr0 | hrpos
    · rw [hrunfst, hr0]
      have hcple := hord n (le_of_lt hn)
      simp only [maxInt32]
      push_cast
      omega
    · have hr1 : relCount (es.take n) = 1 := le_antisymm (hrel ▸ hsubR n) hrpos
      have henq := hseq n (le_of_lt hn) hrpos
      have hcple := hord n (le_of_lt hn)
      rcases Nat.lt_or_ge (cplCount (es.take n)) (enqCount (es.take n)) with hlt | hge
      · rw [henq] at hlt
        rw [hrunfst, hr1, henq]
        simp only [maxInt32]
        push_cast
        omega
      · exfalso
        have heq : cplCount (es.take n) = enqCount (es.take n) := le_antisymm hcple hge
        obtain ⟨e, he⟩ := hdecomp n hn
        cases e with
        | enq =>
          have h1 : enqCount (es.take (n + 1)) = enqCount (es.take n) + 1 := by
            rw [he]
            simp [enqCount, List.countP_append]
          have h2 := hsubE (n + 1)
          omega
        | cpl =>
          have h1 : cplCount (es.take (n + 1)) = cplCount (es.take n) + 1 := by
            rw [he]
            simp [cplCount, List.countP_append]
          have h2 : enqCount (es.take (n + 1)) = enqCount (es.take n) := by
            rw [he]
            simp [enqCount, List.countP_append]
          have h3 := hord (n + 1) hn
          omega
        | rel =>
          have h1 : relCount (es.take (n + 1)) = relCount (es.take n) + 1 := by
            rw [he]
            simp [relCount, List.countP_append]
          have h2 := hsubR (n + 1)
          omega
  have hzero : (bRun es).1 = 0 := by
    rw [hrunfst, hrel, hall]
    push_cast
    ring
  have hlen : 0 < es.length := by
    rcases es with _ | ⟨e, l⟩
    · simp [relCount] at hrel
    · simp
  have hrunstep : ∀ n, ∀ e, es.take (n + 1) = es.take n ++ [e] →
      bRun (es.take (n + 1)) = bStep (bRun (es.take n)) e := by
    intro n e he
    rw [he, bRun, bRun, List.foldl_append]
    rfl
  have hfired : ∀ n, n ≤ es.length →
      (bRun (es.take n)).2 = if n = es.length then 1 else 0 := by
    intro n
    induction n with
    | zero =>
      intro _
      have h0 : (bRun (es.take 0)).2 = 0 := rfl
      rw [h0, if_neg (by omega)]
    | succ n ih =>
      intro hle
      have hn : n < es.length := hle
      obtain ⟨e, he⟩ := hdecomp n hn
      have hst := hrunstep n e he
      have ihv : (bRun (es.take n)).2 = 0 := by
        rw [ih (le_of_lt hn), if_neg (by omega)]
      have hpn := hpos n hn
      rcases hq : bRun (es.take n) with ⟨sv, kv⟩
      rw [hq] at hst ihv hpn
      simp only at ihv hpn
      rcases Nat.lt_or_ge (n + 1) es.length with hlt | hge
      · rw [if_neg (by omega)]
        have hp := hpos (n + 1) hlt
        rw [hst] at hp ⊢
        cases e with
        | enq => simp [bStep, ihv]
        | cpl =>
          simp only [bStep] at hp ⊢
          rw [if_neg (by omega), ihv]
        | rel =>
          simp only [bStep] at hp ⊢
          rw [if_neg (by omega), ihv]
      · have hEnd : n + 1 = es.length := by omega
        rw [if_pos hEnd]
        have htn : es.take (n + 1) = es := by
          rw [hEnd]
          exact List.take_length es
        have h0 : (bRun (es.take (n + 1))).1 = 0 := by
          rw [htn]
          exact hzero
        rw [hst] at h0 ⊢
        cases e with
        | enq =>
          exfalso
          simp only [bStep] at h0
          omega
        | cpl =>
          simp only [bStep] at h0 ⊢
          rw [if_pos h0, ihv]
        | rel =>
          simp only [bStep] at h0 ⊢
          rw [if_pos h0, ihv]
  refine ⟨?_, ?_⟩
  · have hf := hfired es.length (le_refl _)
    rw [if_pos rfl, List.take_length] at hf
    exact hf
  · intro n hn1
    rcases le_or_lt n es.length with hle | hgt
    · have hf := hfired n hle
      by_cases hEnd : n = es.length
      · have htn : es.take n = es := by
          rw [hEnd]
          exact List.take_length es
        rw [htn]
        exact ⟨hrel, hall⟩
      · rw [if_neg hEnd] at hf
        omega
    · have htn : es.take n = es := List.take_of_length_le (le_of_lt hgt)
      rw [htn]
      exact ⟨hrel, hall⟩

/-- Witness for C7: two broadcasts, one completion, Release, then the last
completion — doClose runs exactly once, at the very end. -/
theorem c7_witness :
    (bRun [BEvent.enq, BEvent.enq, BEvent.cpl, BEvent.rel, BEvent.cpl]).2 = 1 := by
  exact (c7_broadcaster_release
    [BEvent.enq, BEvent.enq, BEvent.cpl, BEvent.rel, BEvent.cpl]
    (by decide) (by decide) (by decide) (by decide)).1

end Gws
